import Mathlib

/-!
Verification of the uPDFParser PDF container parser.

This file gives a shallow embedding of the parser and writer found in
src/src/uPDFParser.cpp and src/src/uPDFTypes.cpp (with a few pieces whose
definitions live in headers that are not part of the sources; those are
modelled from the specification and marked as such), and proves or refutes
the behavioural claims about it.

Modelling conventions:
  - A file is an immutable byte sequence `Str := List Char` (each Char holds
    one byte, 0..255).  The file descriptor state is the pair
    (pos : Nat, cur : Nat): `pos` is the read offset (lseek/read), `cur` is
    the parser's `curOffset` member.
  - C++ exceptions become `Except PError`.  `std::stoi`/`std::stof` argument
    errors are the dedicated variants `stdInvalidArgument` / `stdOutOfRange`.
  - All loops take an explicit fuel argument and return `.error .outOfFuel`
    when it runs out, so that every definition is executable by the kernel.
    Theorems are stated conditionally on a successful (`.ok`) run, hence
    hold for every sufficient fuel.
  - `int` is the 32-bit C int of the target platform: values are `Int` with
    the range check of `std::stoi` made explicit.
-/

namespace UPDF

/-- Byte strings: one `Char` per byte. -/
abbrev Str := List Char

/-- The NUL byte. -/
def nulChar : Char := Char.ofNat 0

/-- Error taxonomy: the EXCEPTION kinds raised by the parser, the two
std:: exceptions that can escape `std::stoi`/`std::stof`, and fuel
exhaustion (an artefact of the embedding, never produced by the C++). -/
inductive PError where
  | unableToOpenFile
  | invalidHeader
  | truncatedFile
  | invalidToken
  | invalidName
  | invalidHexaString
  | invalidStream
  | invalidObject
  | invalidTrailer
  | invalidLine
  | stdInvalidArgument
  | stdOutOfRange
  | outOfFuel
deriving DecidableEq

/-- Character-level lexicographic order on byte strings, as std::string
operator< compares unsigned bytes (keys of std::map<std::string, ...>). -/
def strLt : Str → Str → Bool
  | [], [] => false
  | [], _ :: _ => true
  | _ :: _, [] => false
  | a :: as, b :: bs => if a < b then true else if b < a then false else strLt as bs

/-- The values of the PDF object grammar (class DataType and its
subclasses).  `real` keeps the token text because float arithmetic is not
modelled (no claim depends on a Real's numeric value); `dict` is the
std::map, represented as a key-sorted association list; a `none` entry
value is the null pointer stored by parseDictionary for a bare key;
`stream` records the body extent. -/
inductive Value where
  | integer (value : Int) (sgn : Bool)
  | real (raw : Str) (sgn : Bool)
  | name (value : Str)
  | string (value : Str)
  | hexaString (value : Str)
  | array (items : List Value)
  | dict (entries : List (Str × Option Value))
  | ref (objectId generationNumber : Int)
  | stream (startOffset : Nat) (endOffset : Int)
  | boolean (b : Bool)
  | null

/-- A dictionary: the representation of std::map<std::string, DataType*>
as an association list kept sorted by `strLt` on the keys (std::map
iteration order).  Keys are stored without the leading slash. -/
abbrev Dict := List (Str × Option Value)

/-- std::map lookup (map::count / operator[] read). -/
def dictLookup (k : Str) : Dict → Option (Option Value)
  | [] => none
  | (k', v) :: rest => if k = k' then some v else dictLookup k rest

/-- std::map insertion `map[k] = v`: overwrites an existing binding,
otherwise inserts at the key's sorted position (Dictionary::addData and
parseDictionary both store through operator[]). -/
def mapInsert (k : Str) (v : Option Value) : Dict → Dict
  | [] => [(k, v)]
  | (k', v') :: rest =>
      if strLt k k' then (k, v) :: (k', v') :: rest
      else if k = k' then (k, v) :: rest
      else (k', v') :: mapInsert k v rest

/-- std::map::erase by key (Object::deleteKey). -/
def mapDelete (k : Str) : Dict → Dict
  | [] => []
  | (k', v') :: rest => if k = k' then rest else (k', v') :: mapDelete k rest

/-- An xref table line (class XRefValue).  The bound Object pointer is not
modelled; the synchronisation step updates the object list directly. -/
structure XRefEntry where
  objectId : Int
  offset : Int
  generationNumber : Int
  used : Bool
deriving DecidableEq

/-- An indirect object (class Object).  Defaults for `used` and `isNew`
are modelled from the spec (uPDFObject.h is not among the sources): a
parsed object starts used=true, new=false; externally constructed objects
are new=true. -/
structure Obj where
  objectId : Int
  generationNumber : Int
  offset : Nat
  dict : Dict
  data : List Value
  indirectOffset : Option Int
  used : Bool
  isNew : Bool

/-- A freshly parsed object (Object(objectId, generationNumber, offset)):
empty dictionary and data, no indirect offset, used=true, new=false
(defaults modelled from the spec; uPDFObject.h is not among the
sources). -/
def mkParsedObj (objectId generationNumber : Int) (offset : Nat) : Obj :=
  ⟨objectId, generationNumber, offset, [], [], none, true, false⟩

/-- Replace an object's dictionary (effect of parseDictionary on the
object's own map). -/
def setDict (o : Obj) (d : Dict) : Obj :=
  { o with dict := d }

/-- Object::setIndirectOffset. -/
def setIndirect (o : Obj) (v : Int) : Obj :=
  { o with indirectOffset := some v }

/-- Append a value to the object's data list. -/
def pushData (o : Obj) (v : Value) : Obj :=
  { o with data := o.data ++ [v] }

/-- Object::setUsed. -/
def setUsed (o : Obj) (u : Bool) : Obj :=
  { o with used := u }

/-! ## Scanner (Parser::nextToken and helpers) -/

/-- PDF whitespace as the scanner skips it: space, tab, LF, CR, NUL
(uPDFParser.cpp line 170). -/
def wsChar (c : Char) : Bool :=
  c = ' ' || c = '\t' || c = '\n' || c = '\r' || c = nulChar

/-- The `delims` table. `sizeof` on the C string includes its NUL
terminator, so NUL is effectively a delimiter too. -/
def delimChar (c : Char) : Bool :=
  c = ' ' || c = '\t' || c = '<' || c = '>' || c = '[' || c = ']' ||
  c = '(' || c = ')' || c = '/' || c = nulChar

/-- The `whitespace_prev_delims` table "+-" (again with its NUL
terminator, which is unreachable because NUL is already in `delims`). -/
def wsPrevDelim (c : Char) : Bool := c = '+' || c = '-' || c = nulChar

/-- The `start_delims` table "<>[]()" (its NUL terminator is unreachable:
a leading NUL is skipped as whitespace). -/
def startDelim (c : Char) : Bool :=
  c = '<' || c = '>' || c = '[' || c = ']' || c = '(' || c = ')'

/-- First loop of `finishLine`: consume bytes until EOF or a line
terminator (which is consumed). -/
def finishLineA (fuel : Nat) (input : Str) (pos : Nat) : Nat :=
  match fuel with
  | 0 => pos
  | f + 1 =>
    match input[pos]? with
    | none => pos
    | some c => if c = '\n' ∨ c = '\r' then pos + 1 else finishLineA f input (pos + 1)

/-- `finishLine`: consume the rest of the line, then a second terminator
byte if present (\r\n and \n\r support), else push the byte back. -/
def finishLine (fuel : Nat) (input : Str) (pos : Nat) : Nat :=
  let p := finishLineA fuel input pos
  match input[p]? with
  | none => p
  | some c => if c = '\n' ∨ c = '\r' then p + 1 else p

/-- The inner loop of the `readComment` branch of nextToken: accumulate
the rest of the line (terminator consumed, not accumulated). -/
def commentLoop (fuel : Nat) (eofErr : Bool) (input : Str) (pos : Nat) (res : Str) :
    Except PError (Str × Nat) :=
  match fuel with
  | 0 => .error .outOfFuel
  | f + 1 =>
    match input[pos]? with
    | none => if eofErr then .error .truncatedFile else .ok (res, pos)
    | some c =>
      if c = '\n' ∨ c = '\r' then .ok (res, pos + 1)
      else commentLoop f eofErr input (pos + 1) (res ++ [c])

/-- Result of one iteration of the scan loop of nextToken. -/
inductive StepRes where
  | done (tok : Str) (pos cur : Nat)
  | cont (pos cur : Nat) (res : Str) (prev : Char)

/-- One iteration of the while-loop of Parser::nextToken (lines 130-228).
`res` is the token accumulated so far, `prev` the previously read byte
(`prev_c`; 0 on entry).  Fuel only feeds the comment sub-loops. -/
def scanStep (fuel : Nat) (eofErr readComment : Bool) (input : Str) (pos cur : Nat)
    (res : Str) (prev : Char) : Except PError StepRes :=
  match input[pos]? with
  | none => if eofErr then .error .truncatedFile else .ok (.done res pos cur)
  | some c =>
    if c = '%' then
      if readComment then
        match commentLoop fuel eofErr input (pos + 1) (res ++ ['%']) with
        | .error e => .error e
        | .ok (res2, p2) => .ok (.done res2 p2 pos)
      else
        if res = [] then .ok (.cont (finishLine fuel input (pos + 1)) cur [] '%')
        else .ok (.done res (finishLine fuel input (pos + 1)) cur)
    else if wsChar c ∧ res = [] then .ok (.cont (pos + 1) cur [] c)
    else if c = '\n' ∨ c = '\r' then .ok (.done res (pos + 1) cur)
    else if res ≠ [] then
      if delimChar c then .ok (.done res pos cur)
      else if prev = ' ' ∧ wsPrevDelim c then .ok (.done res pos cur)
      else .ok (.cont (pos + 1) cur (res ++ [c]) c)
    else
      if startDelim c then .ok (.done [c] (pos + 1) pos)
      else .ok (.cont (pos + 1) pos [c] c)

/-- The while-loop of Parser::nextToken, iterating `scanStep`. -/
def scanLoop (fuel : Nat) (eofErr readComment : Bool) (input : Str) (pos cur : Nat)
    (res : Str) (prev : Char) : Except PError (Str × Nat × Nat) :=
  match fuel with
  | 0 => .error .outOfFuel
  | f + 1 =>
    match scanStep f eofErr readComment input pos cur res prev with
    | .error e => .error e
    | .ok (.done tok p c) => .ok (tok, p, c)
    | .ok (.cont p c r pr) => scanLoop f eofErr readComment input p c r pr

/-- Parser::nextToken: run the scan loop from an empty token, then the
final `<`/`>` doubling step (lines 231-240).  Returns (token, pos, cur). -/
def nextToken (fuel : Nat) (eofErr readComment : Bool) (input : Str) (pos cur : Nat) :
    Except PError (Str × Nat × Nat) :=
  match scanLoop fuel eofErr readComment input pos cur [] nulChar with
  | .error e => .error e
  | .ok (res, p, c) =>
    if res = ['>'] ∨ res = ['<'] then
      match input[p]? with
      | some ch => if ch = res.headD ' ' then .ok (res ++ [ch], p + 1, c) else .ok (res, p, c)
      | none => .ok (res, p, c)
    else .ok (res, p, c)

/-! ## Numbers (`tokenToNumber`, std::stoi / std::stof) -/

/-- The whitespace set of C `isspace` (skipped by std::stoi / std::stof). -/
def cppIsSpace (c : Char) : Bool :=
  c = ' ' || c = '\t' || c = '\n' || c = Char.ofNat 11 || c = Char.ofNat 12 || c = '\r'

/-- Decimal value of a digit string. -/
def digitsVal (l : Str) : Nat := l.foldl (fun a c => a * 10 + (c.toNat - 48)) 0

/-- std::stoi: skip isspace, optional sign, then a non-empty run of
decimal digits (else std::invalid_argument); the value is range-checked
against the 32-bit `int` (else std::out_of_range). -/
def stoi (s : Str) : Except PError Int :=
  let l := s.dropWhile cppIsSpace
  let sgn : Int := if l.headD ' ' = '-' then -1 else 1
  let l2 := if l.headD ' ' = '-' ∨ l.headD ' ' = '+' then l.tail else l
  let ds := l2.takeWhile Char.isDigit
  if ds = [] then .error .stdInvalidArgument
  else
    let v : Int := sgn * (digitsVal ds : Nat)
    if v < -2147483648 ∨ 2147483647 < v then .error .stdOutOfRange else .ok v

/-- Whether std::stof accepts the string (no numeric prefix raises
std::invalid_argument).  Approximation sufficient for scanner tokens:
after optional isspace and sign, the text must start with a digit, or
with a dot followed by a digit. -/
def stofValid (s : Str) : Bool :=
  let l := s.dropWhile cppIsSpace
  let l2 := if l.headD ' ' = '-' ∨ l.headD ' ' = '+' then l.tail else l
  match l2 with
  | c :: rest => c.isDigit || (c = '.' ∧ (rest.headD ' ').isDigit)
  | [] => false

/-- tokenToNumber (uPDFParser.cpp lines 356-379): a token containing a dot
becomes a Real (a leading dot is normalised by prefixing `0`), anything
else goes through std::stoi into a C `int`.  `sign` is the detached sign
character (NUL when absent); `-` negates, and any explicit sign sets the
`sgn` round-trip flag.  The Real keeps its (possibly negated) token text:
its float value is not modelled. -/
def tokenToNumber (token : Str) (sign : Char) : Except PError Value :=
  if token.contains '.' then
    let t := if token.headD ' ' = '.' then '0' :: token else token
    if stofValid t then .ok (.real (if sign = '-' then '-' :: t else t) (sign ≠ nulChar))
    else .error .stdInvalidArgument
  else
    match stoi token with
    | .error e => .error e
    | .ok v => .ok (.integer (if sign = '-' then -v else v) (sign ≠ nulChar))

/-- Parser::parseSignedNumber: split the sign byte off the token. -/
def parseSignedNumber (token : Str) : Except PError Value :=
  tokenToNumber token.tail (token.headD nulChar)

/-- Parser::parseNumber. -/
def parseNumber (token : Str) : Except PError Value :=
  tokenToNumber token nulChar

/-- Parser::parseNumberOrReference (lines 393-427): turn the token into a
number; a Real is returned as is.  For an Integer, save the file offset,
read two lookahead tokens; if the second token is an Integer
(std::invalid_argument from its conversion is caught, rolling back) and
the third is exactly `R`, build a Reference, else seek back to the saved
offset and return the Integer.  Note `curOffset` keeps the value set while
scanning the lookahead tokens — only the file offset is rolled back. -/
def parseNumberOrReference (fuel : Nat) (token : Str) (input : Str) (pos cur : Nat) :
    Except PError (Value × Nat × Nat) :=
  match tokenToNumber token nulChar with
  | .error e => .error e
  | .ok (.real r sg) => .ok (.real r sg, pos, cur)
  | .ok (.integer i sg) =>
    match nextToken fuel true false input pos cur with
    | .error e => .error e
    | .ok (t2, p2, c2) =>
      match nextToken fuel true false input p2 c2 with
      | .error e => .error e
      | .ok (t3, p3, c3) =>
        match tokenToNumber t2 nulChar with
        | .error .stdInvalidArgument => .ok (.integer i sg, pos, c3)
        | .error e => .error e
        | .ok (.integer g _) =>
          if t3 = ['R'] then .ok (.ref i g, p3, c3)
          else .ok (.integer i sg, pos, c3)
        | .ok _ => .ok (.integer i sg, pos, c3)
  | .ok v => .ok (v, pos, cur)

/-! ## String-like values -/

/-- The loop of Parser::parseString (lines 490-520): raw bytes with a
parenthesis nesting counter (starting at 1) and a backslash escape flag;
the byte stream ends the string at EOF (no error) or at the unescaped `)`
that brings the counter to 0 (checked after the counter update). -/
def parseStringLoop (fuel : Nat) (input : Str) (pos : Nat) (res : Str)
    (escaped : Bool) (cnt : Int) : Except PError (Value × Nat) :=
  match fuel with
  | 0 => .error .outOfFuel
  | f + 1 =>
    match input[pos]? with
    | none => .ok (.string res, pos)
    | some c =>
      let cnt2 := if c = '(' ∧ ¬escaped then cnt + 1
                  else if c = ')' ∧ ¬escaped then cnt - 1 else cnt
      if c = ')' ∧ ¬escaped ∧ cnt2 = 0 then .ok (.string res, pos + 1)
      else
        let esc2 := if c = '\\' ∧ escaped then false else c = '\\'
        parseStringLoop f input (pos + 1) (res ++ [c]) esc2 cnt2

/-- Parser::parseString, entered just after the opening `(`. -/
def parseString (fuel : Nat) (input : Str) (pos : Nat) : Except PError (Value × Nat) :=
  parseStringLoop fuel input pos [] false 1

/-- Whether the parseString loop, run over the given remaining bytes with
the given escape flag and nesting counter, ever stops at a closing
parenthesis (as opposed to running into end-of-file). -/
def stringCloses : Str → Bool → Int → Bool
  | [], _, _ => false
  | c :: rest, escaped, cnt =>
    let cnt2 := if c = '(' ∧ ¬escaped then cnt + 1
                else if c = ')' ∧ ¬escaped then cnt - 1 else cnt
    if c = ')' ∧ ¬escaped ∧ cnt2 = 0 then true
    else stringCloses rest (if c = '\\' ∧ escaped then false else c = '\\') cnt2

/-- The read loop of Parser::parseHexaString: raw bytes until `>` (or EOF,
without error). -/
def parseHexaLoop (fuel : Nat) (input : Str) (pos : Nat) (res : Str) :
    Except PError (Str × Nat) :=
  match fuel with
  | 0 => .error .outOfFuel
  | f + 1 =>
    match input[pos]? with
    | none => .ok (res, pos)
    | some c => if c = '>' then .ok (res, pos + 1) else parseHexaLoop f input (pos + 1) (res ++ [c])

/-- Parser::parseHexaString (lines 522-542): an odd length raises
INVALID_HEXASTRING. -/
def parseHexaString (fuel : Nat) (input : Str) (pos : Nat) : Except PError (Value × Nat) :=
  match parseHexaLoop fuel input pos [] with
  | .error e => .error e
  | .ok (res, p) =>
    if res.length % 2 = 1 then .error .invalidHexaString else .ok (.hexaString res, p)

/-- Parser::parseName: the token must be a non-empty `/…` name; the
returned Name carries the token (with its slash). -/
def parseName (name : Str) : Except PError Str :=
  if name = [] ∨ name.headD ' ' ≠ '/' then .error .invalidName else .ok name

/-! ## readline and the stream body search -/

/-- `readline` (lines 56-92): read up to `size` bytes until a line
terminator; leading terminators are skipped without counting (`size++;
res--`), a terminator after at least one byte is consumed and ends the
line.  On EOF the C++ either raises TRUNCATED_FILE or returns -1 with the
partial buffer; the partial buffer is returned here (its only non-raising
caller, parseHeader, just compares it, and garbage after the written
bytes makes the comparison fail exactly like the partial list does). -/
def readlineLoop (fuel : Nat) (eofErr : Bool) (input : Str) (pos : Nat) (size : Nat)
    (acc : Str) : Except PError (Str × Nat) :=
  match fuel with
  | 0 => .error .outOfFuel
  | f + 1 =>
    match size with
    | 0 => .ok (acc, pos)
    | s + 1 =>
      match input[pos]? with
      | none => if eofErr then .error .truncatedFile else .ok (acc, pos)
      | some c =>
        if c = '\n' ∨ c = '\r' then
          if acc = [] then readlineLoop f eofErr input (pos + 1) (s + 1) acc
          else .ok (acc, pos + 1)
        else readlineLoop f eofErr input (pos + 1) s (acc ++ [c])

/-- `readline` entry point. -/
def readline (fuel : Nat) (eofErr : Bool) (input : Str) (pos : Nat) (size : Nat) :
    Except PError (Str × Nat) :=
  readlineLoop fuel eofErr input pos size []

/-- memmem: index of the first occurrence of `needle` in `hay`. -/
def findSubAux : Str → Str → Nat → Option Nat
  | [], n, i => if n = [] then some i else none
  | c :: t, n, i => if n.isPrefixOf (c :: t) then some i else findSubAux t n (i + 1)

/-- memmem over a whole buffer. -/
def findSub (hay needle : Str) : Option Nat := findSubAux hay needle 0

/-- The slow-path loop of Parser::parseStream (lines 574-588): read
4096-byte lines (EOF raises TRUNCATED_FILE) and search each for the
literal `endstream`; on a hit replay the C++ offset arithmetic
(`lseek(fd, -(ret-pos-9), SEEK_CUR)`, then `endOffset = tell - 10`).
Returns (endOffset, new file position). -/
def streamSearch (fuel : Nat) (input : Str) (pos : Nat) : Except PError (Int × Nat) :=
  match fuel with
  | 0 => .error .outOfFuel
  | f + 1 =>
    match readline f true input pos 4096 with
    | .error e => .error e
    | .ok (line, p2) =>
      match findSub line ("endstream".data) with
      | some idx =>
        let newPos : Int := (p2 : Int) - ((line.length : Int) - (idx : Int) - 9)
        .ok (newPos - 10, newPos.toNat)
      | none => streamSearch f input p2

/-- lseek(fd, target, SEEK_SET): a negative target fails with EINVAL
(unchecked in the C++), leaving the offset where it was. -/
def seekTo (pos : Nat) (target : Int) : Nat := if target < 0 then pos else target.toNat

/-- Whether an entry holds an Integer (Length->type() == INTEGER). -/
def isIntegerOpt : Option (Option Value) → Bool
  | some (some (.integer _ _)) => true
  | _ => false

/-- Payload of an Integer entry. -/
def intOfOpt : Option (Option Value) → Int
  | some (some (.integer v _)) => v
  | _ => 0

/-- Parser::parseStream (lines 544-592), entered with the file positioned
after the `stream` keyword token.  `objDict` is the enclosing object's
dictionary.  Without a `Length` key: INVALID_STREAM.  Fast path when there
is no `Filter` key and `Length` is an Integer: jump to start+Length, read
one token, and accept iff it is `endstream`; else seek back and fall to
the slow search.  (A `Length` key bound to the null pointer of a bare key
is dereferenced by the C++ — undefined behaviour; it is mapped to
INVALID_STREAM here and is unreachable in every claim.) -/
def parseStream (fuel : Nat) (objDict : Dict) (input : Str) (pos cur : Nat) :
    Except PError (Value × Nat × Nat) :=
  match dictLookup ("Length".data) objDict with
  | none => .error .invalidStream
  | some none => .error .invalidStream
  | some (some lv) =>
    if (dictLookup ("Filter".data) objDict).isNone ∧ isIntegerOpt (some (some lv)) then
      let endOffset : Int := (pos : Int) + intOfOpt (some (some lv))
      let pos2 := seekTo pos endOffset
      match nextToken fuel true false input pos2 cur with
      | .error e => .error e
      | .ok (tok, p2, c2) =>
        if tok = "endstream".data then .ok (.stream pos endOffset, p2, c2)
        else
          match streamSearch fuel input pos with
          | .error e => .error e
          | .ok (endOff, p3) => .ok (.stream pos endOff, p3, c2)
    else
      match streamSearch fuel input pos with
      | .error e => .error e
      | .ok (endOff, p3) => .ok (.stream pos endOff, p3, cur)

/-! ## Recursive value parser (parseType / parseDictionary / parseArray)

In the C++, `parseDictionary(object, dict)` fills `dict` in place.  When a
caller passes the object's *own* dictionary (parseObject and parseTrailer
do), the `object` seen by nested `parseType` calls aliases the dictionary
being filled; a nested dictionary value (`parseType` on `<<`) is a fresh
map with no aliasing.  The embedding makes the aliasing explicit:
`objDict? = none` means "the dictionary being parsed is the object's own",
so the object dictionary handed to `parseType` is the current partial
dictionary; `objDict? = some od` is the non-aliased case. -/

mutual

/-- Parser::parseType (lines 429-466): dispatch on the token. -/
def parseType (fuel : Nat) (token : Str) (objDict : Dict) (input : Str) (pos cur : Nat) :
    Except PError (Value × Nat × Nat) :=
  match fuel with
  | 0 => .error .outOfFuel
  | f + 1 =>
    if token = "<<".data then
      match parseDictionary f input pos cur (some objDict) [] with
      | .error e => .error e
      | .ok (d, p, c) => .ok (.dict d, p, c)
    else if token = "[".data then
      match parseArray f objDict input pos cur [] with
      | .error e => .error e
      | .ok (l, p, c) => .ok (.array l, p, c)
    else if token = "(".data then
      match parseString f input pos with
      | .error e => .error e
      | .ok (v, p) => .ok (v, p, cur)
    else if token = "<".data then
      match parseHexaString f input pos with
      | .error e => .error e
      | .ok (v, p) => .ok (v, p, cur)
    else if token = "stream".data then parseStream f objDict input pos cur
    else if '1' ≤ token.headD nulChar ∧ token.headD nulChar ≤ '9' then
      parseNumberOrReference f token input pos cur
    else if token.headD nulChar = '/' then
      match parseName token with
      | .error e => .error e
      | .ok nm => .ok (.name nm, pos, cur)
    else if token.headD nulChar = '+' ∨ token.headD nulChar = '-' then
      match parseSignedNumber token with
      | .error e => .error e
      | .ok v => .ok (v, pos, cur)
    else if token.headD nulChar = '0' ∨ token.headD nulChar = '.' then
      match parseNumber token with
      | .error e => .error e
      | .ok v => .ok (v, pos, cur)
    else if token = "true".data then .ok (.boolean true, pos, cur)
    else if token = "false".data then .ok (.boolean false, pos, cur)
    else if token = "null".data then .ok (.null, pos, cur)
    else .error .invalidToken
termination_by structural fuel

/-- Parser::parseDictionary (lines 603-627): read a key token (`>>` ends
the dictionary; anything else must be a Name), then either `>>` (bare key
bound to the null pointer) or a value via parseType; each binding goes
through operator[].  The stored key is Name::value(), which per the spec
is the name without its leading slash (so that Dictionary::str's
`"/" + key` round-trips); uPDFTypes.h is not among the sources. -/
def parseDictionary (fuel : Nat) (input : Str) (pos cur : Nat) (objDict? : Option Dict)
    (d : Dict) : Except PError (Dict × Nat × Nat) :=
  match fuel with
  | 0 => .error .outOfFuel
  | f + 1 =>
    match nextToken f true false input pos cur with
    | .error e => .error e
    | .ok (tok, p, c) =>
      if tok = ">>".data then .ok (d, p, c)
      else
        match parseName tok with
        | .error e => .error e
        | .ok nm =>
          match nextToken f true false input p c with
          | .error e => .error e
          | .ok (t2, p2, c2) =>
            if t2 = ">>".data then .ok (mapInsert nm.tail none d, p2, c2)
            else
              match parseType f t2 ((objDict?).getD d) input p2 c2 with
              | .error e => .error e
              | .ok (v, p3, c3) =>
                parseDictionary f input p3 c3 objDict? (mapInsert nm.tail (some v) d)
termination_by structural fuel

/-- Parser::parseArray (lines 468-488): parse values until `]`. -/
def parseArray (fuel : Nat) (objDict : Dict) (input : Str) (pos cur : Nat)
    (acc : List Value) : Except PError (List Value × Nat × Nat) :=
  match fuel with
  | 0 => .error .outOfFuel
  | f + 1 =>
    match nextToken f true false input pos cur with
    | .error e => .error e
    | .ok (tok, p, c) =>
      if tok = "]".data then .ok (acc, p, c)
      else
        match parseType f tok objDict input p c with
        | .error e => .error e
        | .ok (v, p2, c2) => parseArray f objDict input p2 c2 (acc ++ [v])
termination_by structural fuel

end

/-! ## Indirect objects, xref, trailer, top level -/

/-- The body loop of Parser::parseObject (lines 658-679): until `endobj`,
a `<<` fills the object's dictionary (merging into what is already
there), a token starting with 1..9 becomes the indirect offset (it must
convert to an Integer), anything else is a value appended to the data
list. -/
def parseObjectLoop (fuel : Nat) (input : Str) (pos cur : Nat) (o : Obj) :
    Except PError (Obj × Nat × Nat) :=
  match fuel with
  | 0 => .error .outOfFuel
  | f + 1 =>
    match nextToken f true false input pos cur with
    | .error e => .error e
    | .ok (tok, p, c) =>
      if tok = "endobj".data then .ok (o, p, c)
      else if tok = "<<".data then
        match parseDictionary f input p c none o.dict with
        | .error e => .error e
        | .ok (d, p2, c2) =>
          parseObjectLoop f input p2 c2 (setDict o d)
      else if '1' ≤ tok.headD nulChar ∧ tok.headD nulChar ≤ '9' then
        match tokenToNumber tok nulChar with
        | .error e => .error e
        | .ok (.integer v _) =>
          parseObjectLoop f input p c (setIndirect o v)
        | .ok _ => .error .invalidObject
      else
        match parseType f tok o.dict input p c with
        | .error e => .error e
        | .ok (v, p2, c2) =>
          parseObjectLoop f input p2 c2 (pushData o v)

/-- Parser::parseObject (lines 629-680): `id gen obj` framing (a failing
std::stoi argument raises INVALID_OBJECT; an out-of-range value escapes
uncaught), then the body loop.  The object's offset is curOffset as it
was when the id token was read. -/
def parseObject (fuel : Nat) (token : Str) (input : Str) (pos cur : Nat) :
    Except PError (Obj × Nat × Nat) :=
  match stoi token with
  | .error .stdInvalidArgument => .error .invalidObject
  | .error e => .error e
  | .ok objectId =>
    match nextToken fuel true false input pos cur with
    | .error e => .error e
    | .ok (t2, p2, c2) =>
      match stoi t2 with
      | .error .stdInvalidArgument => .error .invalidObject
      | .error e => .error e
      | .ok gen =>
        match nextToken fuel true false input p2 c2 with
        | .error e => .error e
        | .ok (t3, p3, c3) =>
          if t3 = "obj".data then
            parseObjectLoop fuel input p3 c3 (mkParsedObj objectId gen cur)
          else .error .invalidObject

/-- Parser::parseStartXref (lines 274-290): one token (the xref offset,
discarded), then one token read with comment preservation which must
begin with `%%EOF`; when it has trailing bytes (`%%EOF1 0 obj`), seek
back to just after the `%%EOF`. -/
def parseStartXref (fuel : Nat) (input : Str) (pos cur : Nat) :
    Except PError (Nat × Nat) :=
  match nextToken fuel true false input pos cur with
  | .error e => .error e
  | .ok (_, p1, c1) =>
    match nextToken fuel false true input p1 c1 with
    | .error e => .error e
    | .ok (t2, p2, c2) =>
      if ("%%EOF".data).isPrefixOf t2 then
        if 5 < t2.length then .ok (c2 + 5, c2) else .ok (p2, c2)
      else .error .invalidTrailer

/-- Parser::parseTrailer (lines 292-315): `<<` then the trailer dictionary
(filled into the trailer object's own map — the aliased case), then one
more token: `startxref` continues into parseStartXref and returns true;
any other token is pushed back (seek to its recorded start offset) and
false is returned, without error. -/
def parseTrailer (fuel : Nat) (input : Str) (pos cur : Nat) (tr : Dict) :
    Except PError (Bool × Dict × Nat × Nat) :=
  match nextToken fuel true false input pos cur with
  | .error e => .error e
  | .ok (t, p, c) =>
    if t = "<<".data then
      match parseDictionary fuel input p c none tr with
      | .error e => .error e
      | .ok (d, p2, c2) =>
        match nextToken fuel true false input p2 c2 with
        | .error e => .error e
        | .ok (t2, p3, c3) =>
          if t2 = "startxref".data then
            match parseStartXref fuel input p3 c3 with
            | .error e => .error e
            | .ok (p4, c4) => .ok (true, d, p4, c4)
          else .ok (false, d, c3, c3)
    else .error .invalidTrailer

/-- The xref line loop of Parser::parseXref (lines 326-350): until
`trailer`, a 10-byte first token is a full entry line (two more tokens:
offset, generation, and the `n`/`f` marker) and increments the running
id; otherwise the first token resets the running id (subsection header;
its count token is read and dropped). -/
def parseXrefLoop (fuel : Nat) (input : Str) (pos cur : Nat) (curId : Int)
    (tbl : List XRefEntry) : Except PError (List XRefEntry × Nat × Nat) :=
  match fuel with
  | 0 => .error .outOfFuel
  | f + 1 =>
    match nextToken f true false input pos cur with
    | .error e => .error e
    | .ok (t0, p0, c0) =>
      if t0 = "trailer".data then .ok (tbl, p0, c0)
      else
        match nextToken f true false input p0 c0 with
        | .error e => .error e
        | .ok (t1, p1, c1) =>
          if t0.length = 10 then
            match nextToken f true false input p1 c1 with
            | .error e => .error e
            | .ok (t2, p2, c2) =>
              match stoi t0 with
              | .error e => .error e
              | .ok off =>
                match stoi t1 with
                | .error e => .error e
                | .ok g =>
                  parseXrefLoop f input p2 c2 (curId + 1)
                    (tbl ++ [⟨curId, off, g, t2 = ['n']⟩])
          else
            match stoi t0 with
            | .error e => .error e
            | .ok v => parseXrefLoop f input p1 c1 v tbl

/-- Parser::parseXref (lines 317-354): record xrefOffset (the offset of
the `xref` token, i.e. curOffset on entry), run the line loop, then
parseTrailer.  Returns (trailer-found-startxref, trailer dict, new
entries, xrefOffset, pos, cur). -/
def parseXref (fuel : Nat) (input : Str) (pos cur : Nat) (tr : Dict) :
    Except PError (Bool × Dict × List XRefEntry × Int × Nat × Nat) :=
  match parseXrefLoop fuel input pos cur 0 [] with
  | .error e => .error e
  | .ok (tbl, p, c) =>
    match parseTrailer fuel input p c tr with
    | .error e => .error e
    | .ok (b, d, p2, c2) => .ok (b, d, tbl, (cur : Int), p2, c2)

/-- Parser::parseHeader (lines 245-272): `%PDF-`, a digit, `.`, a digit
(via readline with exceptionOnEOF=false), then finishLine; curOffset is
set to the resulting file offset.  Returns (major, minor, offset). -/
def parseHeader (fuel : Nat) (input : Str) : Except PError (Nat × Nat × Nat) :=
  match readline fuel false input 0 5 with
  | .error e => .error e
  | .ok (b1, p1) =>
    if b1 ≠ "%PDF-".data then .error .invalidHeader
    else
      match readline fuel false input p1 1 with
      | .error e => .error e
      | .ok (b2, p2) =>
        if ¬ (b2.headD nulChar).isDigit then .error .invalidHeader
        else
          match readline fuel false input p2 1 with
          | .error e => .error e
          | .ok (b3, p3) =>
            if b3.headD nulChar ≠ '.' then .error .invalidHeader
            else
              match readline fuel false input p3 1 with
              | .error e => .error e
              | .ok (b4, p4) =>
                if ¬ (b4.headD nulChar).isDigit then .error .invalidHeader
                else
                  .ok ((b2.headD nulChar).toNat - 48, (b4.headD nulChar).toNat - 48,
                       finishLine fuel input p4)

/-- Parser::getObject (lines 748-761): first object in list order whose
(id, generation) matches (Object::operator== compares the pair, per the
spec's "lookup is by (id, generation)"). -/
def getObject (objs : List Obj) (objectId generationNumber : Int) : Option Obj :=
  match objs with
  | [] => none
  | o :: rest =>
    if o.objectId = objectId ∧ o.generationNumber = generationNumber then some o
    else getObject rest objectId generationNumber

/-- Update the first (id, generation) match with the xref entry's used
flag: the effect of `object->setUsed((*it).used())` after getObject. -/
def setUsedFirst (objectId generationNumber : Int) (u : Bool) : List Obj → List Obj
  | [] => []
  | o :: rest =>
    if o.objectId = objectId ∧ o.generationNumber = generationNumber then setUsed o u :: rest
    else o :: setUsedFirst objectId generationNumber u rest

/-- The xref synchronisation loop at the end of Parser::parse (lines
733-743): for each entry in table order, if some object matches, copy the
entry's used flag onto it (the entry's object pointer is not modelled). -/
def syncObjects (objs : List Obj) : List XRefEntry → List Obj
  | [] => objs
  | e :: rest =>
    syncObjects
      (if (getObject objs e.objectId e.generationNumber).isSome then
        setUsedFirst e.objectId e.generationNumber e.used objs
       else objs) rest

/-- Parser state threaded through the top-level loop: file position,
curOffset, the object list, the trailer object's dictionary, the xref
table and the last xrefOffset (0 before any xref section is seen; the
C++ member is uninitialised until then). -/
structure PSt where
  pos : Nat
  cur : Nat
  objects : List Obj
  trailer : Dict
  xrefTable : List XRefEntry
  xrefOffset : Int

/-- The top-level loop of Parser::parse (lines 705-731): read tokens with
exceptionOnEOF=false until empty; dispatch to parseXref, parseObject
(token starts with 1..9) or parseStartXref; any other token is tolerated
on the second line only (the line is discarded), else INVALID_LINE. -/
def parseLoop (fuel : Nat) (input : Str) (st : PSt) (secondLine : Bool) :
    Except PError PSt :=
  match fuel with
  | 0 => .error .outOfFuel
  | f + 1 =>
    match nextToken f false false input st.pos st.cur with
    | .error e => .error e
    | .ok (tok, p, c) =>
      if tok = [] then .ok { st with pos := p, cur := c }
      else if tok = "xref".data then
        match parseXref f input p c st.trailer with
        | .error e => .error e
        | .ok (_, d, tbl, xo, p2, c2) =>
          parseLoop f input
            { st with pos := p2, cur := c2, trailer := d,
                      xrefTable := st.xrefTable ++ tbl, xrefOffset := xo } false
      else if '1' ≤ tok.headD nulChar ∧ tok.headD nulChar ≤ '9' then
        match parseObject f tok input p c with
        | .error e => .error e
        | .ok (o, p2, c2) =>
          parseLoop f input
            { st with pos := p2, cur := c2, objects := st.objects ++ [o] } false
      else if tok = "startxref".data then
        match parseStartXref f input p c with
        | .error e => .error e
        | .ok (p2, c2) => parseLoop f input { st with pos := p2, cur := c2 } false
      else if secondLine then
        parseLoop f input { st with pos := finishLine f input p, cur := c } false
      else .error .invalidLine

/-- Parser::parse (lines 682-746): header, seek to the recorded offset,
the top-level loop (the second-line tolerance armed), then the xref
synchronisation walk. -/
def parse (fuel : Nat) (input : Str) : Except PError PSt :=
  match parseHeader fuel input with
  | .error e => .error e
  | .ok (_, _, pos0) =>
    match parseLoop fuel input ⟨pos0, pos0, [], [], [], 0⟩ true with
    | .error e => .error e
    | .ok st => .ok { st with objects := syncObjects st.objects st.xrefTable }

/-! ## Serialisation (the str() methods and the incremental writer)

Integer::str, Real::str, Array::str and Dictionary::str are in
uPDFTypes.cpp; Object::str is in uPDFParser.cpp.  The str() methods of
Name, String, HexaString, Reference, Boolean and Null live in the missing
uPDFTypes.h and are modelled from the spec (§4.5.1): values are
self-delimiting, a Name keeps its leading slash, a String is
parenthesised, a HexaString is angle-bracketed.  Real::str goes through
std::to_string on a float; its exact digits are not modelled (no claim
serialises a Real) — the kept token text is emitted.  A parsed Stream's
body is copied from the source file by the writer; stream serialisation
is likewise outside every claim and emits nothing here. -/

/-- Integer::str (uPDFTypes.cpp lines 43-51): a leading space, a `+` when
the explicit-sign flag is set and the value is non-negative, then the
decimal form. -/
def intStr (v : Int) (sgn : Bool) : Str :=
  ' ' :: ((if sgn ∧ 0 ≤ v then ['+'] else []) ++ (toString v).data)

mutual

/-- DataType::str dispatch over the subclasses (see the section comment
for which method bodies are modelled from the spec). -/
def valueStr : Value → Str
  | .integer v sgn => intStr v sgn
  | .real raw sgn => ' ' :: ((if sgn ∧ raw.headD nulChar ≠ '-' then ['+'] else []) ++ raw)
  | .name s => s
  | .string s => '(' :: s ++ [')']
  | .hexaString s => '<' :: s ++ ['>']
  | .array items => arrayGo items ['[']
  | .dict d => "<<".data ++ dictEntriesStr d ++ ">>\n".data
  | .ref i g => ' ' :: ((toString i).data ++ ' ' :: (toString g).data ++ " R".data)
  | .stream _ _ => []
  | .boolean b => if b then "true".data else "false".data
  | .null => "null".data

/-- The element loop of Array::str (uPDFTypes.cpp lines 62-75): a space
before every element once the accumulator is longer than the opening
bracket. -/
def arrayGo : List Value → Str → Str
  | [], acc => acc ++ [']']
  | v :: rest, acc =>
    arrayGo rest (acc ++ (if 1 < acc.length then [' '] else []) ++ valueStr v)

/-- The entry loop of Dictionary::str (uPDFTypes.cpp lines 82-95): for
each entry in map (key-sorted) order, a slash, the key, and the value's
form when the stored pointer is non-null. -/
def dictEntriesStr : List (Str × Option Value) → Str
  | [] => []
  | (k, v) :: rest =>
    ('/' :: k ++ (match v with | some x => valueStr x | none => [])) ++ dictEntriesStr rest

end

/-- Dictionary::str: `<<`, the entries in map order, `>>` and a
newline. -/
def dictStr (d : Dict) : Str := "<<".data ++ dictEntriesStr d ++ ">>\n".data

/-- Object::str (uPDFParser.cpp lines 31-51). -/
def objStr (o : Obj) : Str :=
  (toString o.objectId).data ++ ' ' :: (toString o.generationNumber).data ++ " obj\n".data
  ++ (match o.indirectOffset with
      | some io => "   ".data ++ (toString io).data ++ ['\n']
      | none =>
        (if o.dict.isEmpty then [] else dictStr o.dict)
        ++ (o.data.map valueStr).flatten)
  ++ "endobj\n".data

/-- Left zero-padding of std::setw(w) with std::setfill('0'). -/
def padZ (w : Nat) (s : Str) : Str := List.replicate (w - s.length) '0' ++ s

/-- The two xref stringstream lines per new object in Parser::writeUpdate
(lines 787-788): `id 1` and the 10-digit offset / 5-digit generation
`n` line with its load-bearing CR. -/
def xrefLineFor (o : Obj) (off : Nat) : Str :=
  (toString o.objectId).data ++ " 1\n".data
  ++ padZ 10 (toString off).data ++ ' ' :: padZ 5 (toString o.generationNumber).data
  ++ " n\r\n".data

/-- The object-writing loop of Parser::writeUpdate (lines 778-789):
serialise the objects with new=true in order, recording each one's start
offset; produce (object bytes, xref lines, count of new objects). -/
def updBody : List Obj → Nat → Str × Str × Nat
  | [], _ => ([], [], 0)
  | o :: rest, off =>
    if o.isNew then
      let s := objStr o
      let r := updBody rest (off + s.length)
      (s ++ r.1, xrefLineFor o off ++ r.2.1, r.2.2 + 1)
    else updBody rest off

/-- The `(int)xrefOffset` cast: wrap into the 32-bit signed range. -/
def toInt32 (x : Int) : Int := (x + 2147483648) % 4294967296 - 2147483648

/-- Lines 802-803 of Parser::writeUpdate: `trailer.deleteKey("Prev")`
then `addData("Prev", new Integer((int)xrefOffset))` — on the std::map
this deletes any old binding and re-inserts at the key's sorted
position. -/
def updateTrailer (t : Dict) (xrefOff : Int) : Dict :=
  mapInsert ("Prev".data) (some (.integer (toInt32 xrefOff) false)) (mapDelete ("Prev".data) t)

/-- Parser::writeUpdate (lines 763-816): the byte string appended to a
file of length `priorLen` opened with O_APPEND.  A single CR is written
unconditionally; then the new objects; if there were none the file is
closed there.  Otherwise the xref section, `trailer` + the trailer
dictionary with Prev rebound to (int)xrefOffset, and
`startxref\n<newXrefOffset>\n%%EOF`. -/
def writeUpdate (priorLen : Nat) (objs : List Obj) (t : Dict) (xrefOff : Int) : Str :=
  let r := updBody objs (priorLen + 1)
  if r.2.2 = 0 then ['\r']
  else
    ('\r' :: r.1 ++ ("xref\n".data ++ r.2.1))
    ++ (("trailer\n".data ++ dictStr (updateTrailer t xrefOff))
    ++ ("startxref\n".data ++ (toString (priorLen + 1 + r.1.length)).data ++ "\n%%EOF".data))

/-! ## Order theory for the std::map model -/

/-- Unfolding of `strLt` on two non-empty strings. -/
theorem strLt_cons (x y : Char) (xs ys : Str) :
    strLt (x :: xs) (y :: ys) = true ↔ (x < y ∨ (x = y ∧ strLt xs ys = true)) := by
  simp only [strLt]
  rcases lt_trichotomy x y with h | h | h
  · simp [h]
  · subst h
    simp [lt_irrefl]
  · simp [not_lt_of_gt h, h, ne_of_gt h]

/-- `strLt` is transitive. -/
theorem strLt_trans : ∀ (a b c : Str), strLt a b = true → strLt b c = true → strLt a c = true := by
  intro a
  induction a with
  | nil =>
    intro b c h1 h2
    cases b with
    | nil => simp [strLt] at h1
    | cons y ys =>
      cases c with
      | nil => simp [strLt] at h2
      | cons z zs => simp [strLt]
  | cons x xs ih =>
    intro b c h1 h2
    cases b with
    | nil => simp [strLt] at h1
    | cons y ys =>
      cases c with
      | nil => simp [strLt] at h2
      | cons z zs =>
        rw [strLt_cons] at h1 h2 ⊢
        rcases h1 with h1 | ⟨rfl, h1⟩
        · rcases h2 with h2 | ⟨rfl, h2⟩
          · exact Or.inl (lt_trans h1 h2)
          · exact Or.inl h1
        · rcases h2 with h2 | ⟨rfl, h2⟩
          · exact Or.inl h2
          · exact Or.inr ⟨rfl, ih ys zs h1 h2⟩

/-- `strLt` is total on distinct strings. -/
theorem strLt_total : ∀ (a b : Str), a = b ∨ strLt a b = true ∨ strLt b a = true := by
  intro a
  induction a with
  | nil =>
    intro b
    cases b with
    | nil => exact Or.inl rfl
    | cons y ys => exact Or.inr (Or.inl (by simp [strLt]))
  | cons x xs ih =>
    intro b
    cases b with
    | nil => exact Or.inr (Or.inr (by simp [strLt]))
    | cons y ys =>
      rcases lt_trichotomy x y with h | h | h
      · exact Or.inr (Or.inl ((strLt_cons x y xs ys).mpr (Or.inl h)))
      · subst h
        rcases ih ys with h' | h' | h'
        · exact Or.inl (by rw [h'])
        · exact Or.inr (Or.inl ((strLt_cons x x xs ys).mpr (Or.inr ⟨rfl, h'⟩)))
        · exact Or.inr (Or.inr ((strLt_cons x x ys xs).mpr (Or.inr ⟨rfl, h'⟩)))
      · exact Or.inr (Or.inr ((strLt_cons y x ys xs).mpr (Or.inl h)))

/-- The std::map invariant: entries strictly ascending in key order. -/
def SortedK (d : Dict) : Prop := List.Pairwise (fun a b => strLt a.1 b.1 = true) d

/-- Every entry of `mapInsert k v d` carries the new key or comes from
`d`. -/
theorem mem_mapInsert (k : Str) (v : Option Value) :
    ∀ (d : Dict) (e : Str × Option Value), e ∈ mapInsert k v d → e.1 = k ∨ e ∈ d := by
  intro d
  induction d with
  | nil =>
    intro e he
    simp only [mapInsert, List.mem_singleton] at he
    exact Or.inl (by rw [he])
  | cons kv rest ih =>
    intro e he
    simp only [mapInsert] at he
    by_cases h1 : strLt k kv.1
    · rw [if_pos h1] at he
      rcases List.mem_cons.mp he with rfl | he2
      · exact Or.inl rfl
      · exact Or.inr he2
    · rw [if_neg h1] at he
      by_cases h2 : k = kv.1
      · rw [if_pos h2] at he
        rcases List.mem_cons.mp he with rfl | he2
        · exact Or.inl rfl
        · exact Or.inr (List.mem_cons_of_mem _ he2)
      · rw [if_neg h2] at he
        rcases List.mem_cons.mp he with rfl | he2
        · exact Or.inr (List.mem_cons_self _ _)
        · rcases ih e he2 with h | h
          · exact Or.inl h
          · exact Or.inr (List.mem_cons_of_mem _ h)

/-- `mapInsert` preserves the std::map invariant. -/
theorem mapInsert_sorted (k : Str) (v : Option Value) :
    ∀ (d : Dict), SortedK d → SortedK (mapInsert k v d) := by
  intro d
  induction d with
  | nil =>
    intro _
    simp [SortedK, mapInsert]
  | cons kv rest ih =>
    intro hs
    rcases List.pairwise_cons.mp hs with ⟨hhead, htail⟩
    simp only [SortedK, mapInsert]
    by_cases h1 : strLt k kv.1
    · rw [if_pos h1]
      refine List.pairwise_cons.mpr ⟨?_, hs⟩
      intro e he
      rcases List.mem_cons.mp he with rfl | he2
      · exact h1
      · exact strLt_trans _ _ _ h1 (hhead e he2)
    · rw [if_neg h1]
      by_cases h2 : k = kv.1
      · rw [if_pos h2]
        refine List.pairwise_cons.mpr ⟨?_, htail⟩
        intro e he
        rw [h2]
        exact hhead e he
      · rw [if_neg h2]
        refine List.pairwise_cons.mpr ⟨?_, ih htail⟩
        intro e he
        rcases mem_mapInsert k v rest e he with h | h
        · rw [h]
          rcases strLt_total k kv.1 with h' | h' | h'
          · exact absurd h' h2
          · exact absurd h' h1
          · exact h'
        · exact hhead e h

/-- `mapDelete` returns a sublist. -/
theorem mapDelete_sublist (k : Str) : ∀ (d : Dict), (mapDelete k d).Sublist d := by
  intro d
  induction d with
  | nil => simp [mapDelete]
  | cons kv rest ih =>
    simp only [mapDelete]
    by_cases h : k = kv.1
    · rw [if_pos h]
      exact List.sublist_cons_self _ _
    · rw [if_neg h]
      exact List.Sublist.cons₂ _ ih

/-- `mapDelete` preserves the std::map invariant. -/
theorem mapDelete_sorted (k : Str) (d : Dict) (hs : SortedK d) : SortedK (mapDelete k d) :=
  List.Pairwise.sublist (mapDelete_sublist k d) hs

/-- Looking up the key just inserted. -/
theorem dictLookup_mapInsert_self (k : Str) (v : Option Value) :
    ∀ (d : Dict), dictLookup k (mapInsert k v d) = some v := by
  intro d
  induction d with
  | nil => simp [mapInsert, dictLookup]
  | cons kv rest ih =>
    simp only [mapInsert]
    by_cases h1 : strLt k kv.1
    · rw [if_pos h1]
      simp [dictLookup]
    · rw [if_neg h1]
      by_cases h2 : k = kv.1
      · rw [if_pos h2]
        simp [dictLookup]
      · rw [if_neg h2]
        simp only [dictLookup, if_neg h2]
        exact ih

/-- The dictionaries produced by parseDictionary satisfy the std::map
invariant whenever the dictionary being filled does: every binding goes
through operator[] (`mapInsert`). -/
theorem parseDictionary_sorted :
    ∀ (fuel : Nat) (input : Str) (pos cur : Nat) (objDict? : Option Dict) (d d' : Dict)
      (p c : Nat), SortedK d → parseDictionary fuel input pos cur objDict? d = .ok (d', p, c) →
      SortedK d' := by
  intro fuel
  induction fuel with
  | zero =>
    intro input pos cur od d d' p c hs h
    simp [parseDictionary] at h
  | succ f ih =>
    intro input pos cur od d d' p c hs h
    rw [parseDictionary] at h
    split at h
    · exact absurd h (by simp)
    · split at h
      · simp only [Except.ok.injEq, Prod.mk.injEq] at h
        obtain ⟨rfl, rfl, rfl⟩ := h
        exact hs
      · split at h
        · exact absurd h (by simp)
        · split at h
          · exact absurd h (by simp)
          · split at h
            · simp only [Except.ok.injEq, Prod.mk.injEq] at h
              obtain ⟨rfl, rfl, rfl⟩ := h
              exact mapInsert_sorted _ none d hs
            · split at h
              · exact absurd h (by simp)
              · exact ih _ _ _ _ _ _ _ _ (mapInsert_sorted _ _ d hs) h

/-- Claim C1: the claim asserts that Dictionary serialisation lists the
keys in the order they were inserted during parsing.  It is false: the
dictionary is a std::map, which iterates in ascending key order.  Parsing
`/B 1/A 2>>` inserts B first, then A, yet the resulting map lists A
before B and Dictionary::str renders `<</A 2/B 1>>` — not the insertion
order B, A. -/
theorem c1_counterexample :
    parseDictionary 100 ("/B 1/A 2>>Z Z\n".data) 0 0 (some []) [] =
      .ok ([("A".data, some (Value.integer 2 false)), ("B".data, some (Value.integer 1 false))],
        10, 8)
    ∧ dictStr [("A".data, some (Value.integer 2 false)), ("B".data, some (Value.integer 1 false))]
        = "<</A 2/B 1>>\n".data
    ∧ ("/B 1/A 2>>Z Z\n".data).take 2 = "/B".data
    ∧ [("A".data : Str), ("B".data : Str)] ≠ [("B".data : Str), ("A".data : Str)] :=
  ⟨rfl, rfl, rfl, by decide⟩

/-- Claim C1 (amended): for every dictionary parsed by parseDictionary
(into an initially well-formed map), the serialized output lists the keys
in ascending byte-lexicographic order — the std::map iteration order used
by Dictionary::str — regardless of insertion order, with a later insert
of the same key overwriting the previous value. -/
theorem c1_serialized_keys_sorted (fuel : Nat) (input : Str) (pos cur : Nat)
    (objDict? : Option Dict) (d d' : Dict) (p c : Nat)
    (hs : SortedK d) (h : parseDictionary fuel input pos cur objDict? d = .ok (d', p, c)) :
    List.Pairwise (fun a b => strLt a b = true) (d'.map Prod.fst) :=
  (List.pairwise_map).mpr (parseDictionary_sorted fuel input pos cur objDict? d d' p c hs h)

/-- Witness for C1 (amended) at the counterexample input. -/
theorem c1_witness :
    List.Pairwise (fun a b => strLt a b = true)
      (([("A".data, some (Value.integer 2 false)),
         ("B".data, some (Value.integer 1 false))] : Dict).map Prod.fst) :=
  c1_serialized_keys_sorted 100 ("/B 1/A 2>>Z Z\n".data) 0 0 (some []) []
    [("A".data, some (Value.integer 2 false)), ("B".data, some (Value.integer 1 false))] 10 8
    (List.Pairwise.nil) rfl

/-! ## C2: parseNumberOrReference lookahead -/

/-- Claim C2: as stated the claim is false.  On input `1 0 X` (followed
by a newline) the integer token `1` was read with curOffset = 0 and the
file position 1; parseNumberOrReference reads the lookahead tokens `0`
and `X`, rejects them, seeks the file back to the saved offset 1 and
returns Integer(1) — but the parser's curOffset member now holds 4, the
start offset of the lookahead token `X`, not its pre-lookahead value 0:
a side effect of the lookahead persists past the rollback, so the
rollback is not transactional. -/
theorem c2_counterexample :
    parseNumberOrReference 100 ("1".data) ("1 0 X\n".data) 1 0 =
      .ok (.integer 1 false, 1, 4)
    ∧ (4 : Nat) ≠ 0 :=
  ⟨rfl, by decide⟩

/-- Claim C2 (amended): when parseNumberOrReference reads an Integer and
the two lookahead tokens are not (Integer, `R`), it seeks the *file
position* back to the offset saved just after the first token and
returns the original Integer — but the recorded token-start offset
(curOffset) keeps the value set while scanning the lookahead (the value
recorded for the third token), so one side effect of the lookahead does
persist.  When the lookahead tokens are an Integer and the literal `R`,
it returns Reference(first, second). -/
theorem c2_rollback_and_reference (fuel : Nat) (tok : Str) (input : Str) (pos cur : Nat)
    (i : Int) (sg : Bool) (t2 t3 : Str) (p2 c2 p3 c3 : Nat)
    (h1 : tokenToNumber tok nulChar = .ok (.integer i sg))
    (h2 : nextToken fuel true false input pos cur = .ok (t2, p2, c2))
    (h3 : nextToken fuel true false input p2 c2 = .ok (t3, p3, c3)) :
    ((tokenToNumber t2 nulChar = .error .stdInvalidArgument
      ∨ (∃ r rs, tokenToNumber t2 nulChar = .ok (.real r rs))
      ∨ ((∃ g gs, tokenToNumber t2 nulChar = .ok (.integer g gs)) ∧ t3 ≠ ['R'])) →
        parseNumberOrReference fuel tok input pos cur = .ok (.integer i sg, pos, c3))
    ∧ (∀ g gs, tokenToNumber t2 nulChar = .ok (.integer g gs) → t3 = ['R'] →
        parseNumberOrReference fuel tok input pos cur = .ok (.ref i g, p3, c3)) := by
  constructor
  · intro hcase
    rcases hcase with hx | ⟨r, rs, hx⟩ | ⟨⟨g, gs, hx⟩, hne⟩
    · simp only [parseNumberOrReference, h1, h2, h3, hx]
    · simp only [parseNumberOrReference, h1, h2, h3, hx]
    · simp only [parseNumberOrReference, h1, h2, h3, hx, if_neg hne]
  · intro g gs hx hr
    simp only [parseNumberOrReference, h1, h2, h3, hx, if_pos hr]

/-- Witness for C2 (amended): `1 0 R ` produces Reference(1, 0). -/
theorem c2_witness :
    parseNumberOrReference 100 ("1".data) ("1 0 R \n".data) 1 0 = .ok (.ref 1 0, 5, 4) :=
  (c2_rollback_and_reference 100 ("1".data) ("1 0 R \n".data) 1 0 1 false
    ("0".data) (['R']) 3 2 5 4 rfl rfl rfl).2 0 false rfl rfl

/-! ## C4 and C3: the incremental writer -/

/-- When no object is new, the object-writing loop of writeUpdate emits
nothing and counts zero. -/
theorem updBody_all_old :
    ∀ (objs : List Obj) (off : Nat), (∀ o ∈ objs, o.isNew = false) →
      updBody objs off = ([], [], 0) := by
  intro objs
  induction objs with
  | nil => intro off _; rfl
  | cons o rest ih =>
    intro off h
    have ho : o.isNew = false := h o (List.mem_cons_self o rest)
    simp only [updBody, ho]
    simp only [Bool.false_eq_true, if_false]
    exact ih off (fun o' ho' => h o' (List.mem_cons_of_mem _ ho'))

/-- When some object is new, the loop counts at least one. -/
theorem updBody_count_pos :
    ∀ (objs : List Obj) (off : Nat), (∃ o ∈ objs, o.isNew = true) →
      (updBody objs off).2.2 ≠ 0 := by
  intro objs
  induction objs with
  | nil =>
    intro off h
    rcases h with ⟨o, ho, _⟩
    exact absurd ho (List.not_mem_nil o)
  | cons o rest ih =>
    intro off h
    by_cases hnew : o.isNew
    · simp [updBody, hnew]
    · rcases h with ⟨w, hw, hmatch⟩
      rcases List.mem_cons.mp hw with rfl | hw2
      · exact absurd hmatch (by simpa using hnew)
      · simp only [updBody, hnew, Bool.false_eq_true, if_false]
        exact ih off ⟨w, hw2, hmatch⟩

/-- Claim C4: as stated the claim is false.  writeUpdate writes one CR
byte before looking for new objects, so a Document with no new objects
still appends exactly that byte: the file is modified. -/
theorem c4_counterexample :
    writeUpdate 10 [] [] 0 = ['\r']
    ∧ (['\r'] : Str) ≠ []
    ∧ (['\r'] : Str).length = 1 :=
  ⟨rfl, by decide, rfl⟩

/-- Claim C4 (amended): for every Document with no new objects,
write(path, update=true) appends exactly the single unconditional CR
byte and nothing else — no objects, no xref, no trailer, no startxref. -/
theorem c4_update_without_new_objects (priorLen : Nat) (objs : List Obj) (t : Dict) (x : Int)
    (h : ∀ o ∈ objs, o.isNew = false) :
    writeUpdate priorLen objs t x = ['\r'] := by
  simp [writeUpdate, updBody_all_old objs (priorLen + 1) h]

/-- Witness for C4 (amended): one old object, nothing appended but CR. -/
theorem c4_witness :
    writeUpdate 7 [⟨5, 0, 0, [], [], none, true, false⟩] [] 3 = ['\r'] :=
  c4_update_without_new_objects 7 [⟨5, 0, 0, [], [], none, true, false⟩] [] 3
    (fun o ho => by rw [List.mem_singleton.mp ho])

/-- Claim C3: as stated the claim is false.  The trailer written by
writeUpdate does carry Prev = prior xrefOffset, but the trailer is a
std::map: deleting and re-adding `Prev` does not move it to the last
position — it is re-inserted at its sorted place.  With trailer keys
Root and Size and xrefOffset 100, the emitted trailer is
`<</Prev 100/Root 1/Size 4>>` : Prev is first, and the last key is Size,
not Prev. -/
theorem c3_counterexample :
    writeUpdate 10 [⟨42, 0, 0, [("A".data, some (Value.integer 7 false))], [], none, true, true⟩]
        [("Root".data, some (Value.integer 1 false)), ("Size".data, some (Value.integer 4 false))]
        100
      = ("\r42 0 obj\n<</A 7>>\nendobj\nxref\n42 1\n0000000011 00000 n\r\n" ++
         "trailer\n<</Prev 100/Root 1/Size 4>>\nstartxref\n36\n%%EOF").data
    ∧ (updateTrailer [("Root".data, some (Value.integer 1 false)),
        ("Size".data, some (Value.integer 4 false))] 100).map Prod.fst
      = ["Prev".data, "Root".data, "Size".data]
    ∧ (["Prev".data, "Root".data, "Size".data] : List Str).getLast? = some ("Size".data)
    ∧ ("Size".data : Str) ≠ "Prev".data :=
  ⟨rfl, rfl, rfl, by decide⟩

/-- Claim C3 (amended): for every incremental write with at least one new
object, the emitted trailer dictionary binds `Prev` to the prior
xrefOffset recorded at parse time (cast to int), and the trailer bytes —
which the output provably contains right after `trailer\n` — list the
keys in ascending std::map order, so `Prev` sits at its sorted position,
not necessarily last. -/
theorem c3_prev_value_and_position (t : Dict) (x : Int) (priorLen : Nat) (objs : List Obj)
    (hs : SortedK t) (hnew : ∃ o ∈ objs, o.isNew = true) :
    dictLookup ("Prev".data) (updateTrailer t x) = some (some (.integer (toInt32 x) false))
    ∧ SortedK (updateTrailer t x)
    ∧ ∃ a b : Str, writeUpdate priorLen objs t x =
        a ++ ("trailer\n".data ++ dictStr (updateTrailer t x)) ++ b := by
  refine ⟨dictLookup_mapInsert_self _ _ _,
    mapInsert_sorted _ _ _ (mapDelete_sorted _ _ hs), ?_⟩
  refine ⟨'\r' :: (updBody objs (priorLen + 1)).1 ++
      ("xref\n".data ++ (updBody objs (priorLen + 1)).2.1),
    "startxref\n".data ++
      (toString (priorLen + 1 + (updBody objs (priorLen + 1)).1.length)).data ++
      "\n%%EOF".data, ?_⟩
  simp [writeUpdate, updBody_count_pos objs (priorLen + 1) hnew, List.append_assoc]

/-- Witness for C3 (amended) at the counterexample document. -/
theorem c3_witness :
    dictLookup ("Prev".data)
        (updateTrailer [("Root".data, some (Value.integer 1 false)),
          ("Size".data, some (Value.integer 4 false))] 100)
      = some (some (.integer (toInt32 100) false))
    ∧ SortedK (updateTrailer [("Root".data, some (Value.integer 1 false)),
        ("Size".data, some (Value.integer 4 false))] 100)
    ∧ ∃ a b : Str,
        writeUpdate 10
          [⟨42, 0, 0, [("A".data, some (Value.integer 7 false))], [], none, true, true⟩]
          [("Root".data, some (Value.integer 1 false)),
           ("Size".data, some (Value.integer 4 false))] 100 =
        a ++ ("trailer\n".data ++
          dictStr (updateTrailer [("Root".data, some (Value.integer 1 false)),
            ("Size".data, some (Value.integer 4 false))] 100)) ++ b :=
  c3_prev_value_and_position
    [("Root".data, some (Value.integer 1 false)), ("Size".data, some (Value.integer 4 false))]
    100 10
    [⟨42, 0, 0, [("A".data, some (Value.integer 7 false))], [], none, true, true⟩]
    (by unfold SortedK; decide)
    ⟨⟨42, 0, 0, [("A".data, some (Value.integer 7 false))], [], none, true, true⟩,
      List.mem_cons_self _ _, rfl⟩

/-! ## C5: uniqueness of (id, generation) -/

/-- Claim C5: as stated the claim is false.  parseObject appends every
parsed object to the list with no uniqueness check, so the PDF below —
two `1 0 obj … endobj` groups — parses into an object list whose
(id, generation) pairs are [(1,0), (1,0)]: not unique. -/
theorem c5_counterexample :
    (parse 300 ("%PDF-1.4\n1 0 obj null endobj\n1 0 obj null endobj\n".data)).map
        (fun st => st.objects.map (fun o => (o.objectId, o.generationNumber)))
      = .ok [(1, 0), (1, 0)]
    ∧ ¬ ([((1 : Int), (0 : Int)), (1, 0)] : List (Int × Int)).Nodup :=
  ⟨rfl, by decide⟩

/-- Claim C5 (amended): the parser does not enforce uniqueness of
(id, generation) — duplicates are retained in parse order — and
getObject resolves a pair to the *first* matching object of the list:
whenever a match exists, the list splits as pre ++ o :: post with o the
returned object and no match in pre. -/
theorem c5_get_object_first_match (objs : List Obj) (objectId generationNumber : Int)
    (h : ∃ o ∈ objs, o.objectId = objectId ∧ o.generationNumber = generationNumber) :
    ∃ pre o post, objs = pre ++ o :: post
      ∧ o.objectId = objectId ∧ o.generationNumber = generationNumber
      ∧ (∀ o' ∈ pre, ¬ (o'.objectId = objectId ∧ o'.generationNumber = generationNumber))
      ∧ getObject objs objectId generationNumber = some o := by
  induction objs with
  | nil =>
    rcases h with ⟨o, ho, _⟩
    exact absurd ho (List.not_mem_nil o)
  | cons a rest ih =>
    by_cases ha : a.objectId = objectId ∧ a.generationNumber = generationNumber
    · refine ⟨[], a, rest, rfl, ha.1, ha.2, ?_, ?_⟩
      · intro o' ho'
        exact absurd ho' (List.not_mem_nil o')
      · simp [getObject, ha]
    · rcases h with ⟨w, hw, hmatch⟩
      rcases List.mem_cons.mp hw with rfl | hw2
      · exact absurd hmatch ha
      · rcases ih ⟨w, hw2, hmatch⟩ with ⟨pre, o, post, heq, hm1, hm2, hpre, hget⟩
        refine ⟨a :: pre, o, post, by rw [heq]; rfl, hm1, hm2, ?_, ?_⟩
        · intro o' ho'
          rcases List.mem_cons.mp ho' with rfl | h5
          · exact ha
          · exact hpre o' h5
        · simpa [getObject, ha] using hget

/-- Witness for C5 (amended): a list holding two objects with the same
(id, generation); lookup returns the first. -/
theorem c5_witness :
    ∃ pre o post, [mkParsedObj 1 0 9, mkParsedObj 1 0 31] = pre ++ o :: post
      ∧ o.objectId = 1 ∧ o.generationNumber = 0
      ∧ (∀ o' ∈ pre, ¬ (o'.objectId = 1 ∧ o'.generationNumber = 0))
      ∧ getObject [mkParsedObj 1 0 9, mkParsedObj 1 0 31] 1 0 = some o :=
  c5_get_object_first_match [mkParsedObj 1 0 9, mkParsedObj 1 0 31] 1 0
    ⟨mkParsedObj 1 0 9, List.mem_cons_self _ _, rfl, rfl⟩

/-! ## C6: the stream fast path -/

/-- Claim C6: when the enclosing dictionary has an Integer `Length`, no
`Filter`, and the token read at offset start+Length is `endstream`,
parseStream returns a Stream with extent (start, start+Length), so
end − start = Length. -/
theorem c6_stream_fast_path (fuel : Nat) (objDict : Dict) (input : Str) (pos cur : Nat)
    (len : Int) (lsgn : Bool) (p2 c2 : Nat)
    (hLen : dictLookup ("Length".data) objDict = some (some (.integer len lsgn)))
    (hFil : dictLookup ("Filter".data) objDict = none)
    (hpos : 0 ≤ (pos : Int) + len)
    (hTok : nextToken fuel true false input ((pos : Int) + len).toNat cur =
      .ok ("endstream".data, p2, c2)) :
    parseStream fuel objDict input pos cur = .ok (.stream pos ((pos : Int) + len), p2, c2)
    ∧ ((pos : Int) + len) - (pos : Int) = len := by
  refine ⟨?_, by ring⟩
  simp only [parseStream, hLen, hFil, isIntegerOpt, intOfOpt, Option.isNone_none,
    seekTo, if_neg (not_lt.mpr hpos), true_and, if_true]
  rw [hTok]
  simp

/-- Witness for C6 on the spec's concrete stream scenario (Length 3,
body `abc`). -/
theorem c6_witness :
    parseStream 100 [("Length".data, some (Value.integer 3 false))]
        ("abc\nendstream\n".data) 0 0 = .ok (.stream 0 3, 14, 4)
    ∧ ((0 : Int) + 3) - (0 : Int) = 3 := by
  have h := c6_stream_fast_path 100 [("Length".data, some (Value.integer 3 false))]
    ("abc\nendstream\n".data) 0 0 3 false 14 4 rfl rfl (by decide) rfl
  exact ⟨by simpa using h.1, by norm_num⟩

/-! ## C7: trailer without startxref -/

/-- Claim C7: when the token after the trailer dictionary is not
`startxref`, parseTrailer raises no error: it seeks the file back to
that token's recorded start offset (curOffset) and returns false, so
top-level parsing resumes right after the trailer dictionary. -/
theorem c7_trailer_pushback (fuel : Nat) (input : Str) (pos cur : Nat) (tr d : Dict)
    (p1 c1 p2 c2 : Nat) (t2 : Str) (p3 c3 : Nat)
    (h1 : nextToken fuel true false input pos cur = .ok ("<<".data, p1, c1))
    (h2 : parseDictionary fuel input p1 c1 none tr = .ok (d, p2, c2))
    (h3 : nextToken fuel true false input p2 c2 = .ok (t2, p3, c3))
    (h4 : t2 ≠ "startxref".data) :
    parseTrailer fuel input pos cur tr = .ok (false, d, c3, c3) := by
  simp only [parseTrailer, h1, h2, h3]
  simp [h4]

/-- Witness for C7: a trailer dictionary followed by `foo`. -/
theorem c7_witness :
    parseTrailer 100 ("<</A>>foo bar\n".data) 0 0 [] = .ok (false, [("A".data, none)], 6, 6) :=
  c7_trailer_pushback 100 ("<</A>>foo bar\n".data) 0 0 [] [("A".data, none)]
    2 0 6 4 ("foo".data) 9 6 rfl rfl rfl (by decide)

/-! ## C8: `+`/`-` in the scanner -/

/-- A byte that is neither a delimiter nor a line terminator is not
whitespace (space, tab and NUL are in the delimiter table). -/
theorem wsChar_false_of (c : Char) (hd : ¬ delimChar c = true) (hnl : ¬(c = '\n' ∨ c = '\r')) :
    wsChar c = false := by
  cases hw : wsChar c with
  | false => rfl
  | true =>
    have hw2 : c = ' ' ∨ c = '\t' ∨ c = '\n' ∨ c = '\r' ∨ c = nulChar := by
      simpa [wsChar, or_assoc] using hw
    rcases hw2 with h | h | h | h | h
    · exact absurd (by rw [h]; decide) hd
    · exact absurd (by rw [h]; decide) hd
    · exact absurd (Or.inl h) hnl
    · exact absurd (Or.inr h) hnl
    · exact absurd (by rw [h]; decide) hd

/-- Reachability invariant of the scan loop: whenever an iteration
continues with a non-empty accumulated token, the previously read byte is
not whitespace.  (The loop starts with an empty token and prev = NUL, so
by this preservation every reachable mid-token state satisfies the
invariant.) -/
theorem scanStep_inv (fuel : Nat) (eofErr readComment : Bool) (input : Str) (pos cur : Nat)
    (res : Str) (prev : Char) (p2 c2 : Nat) (r2 : Str) (pr2 : Char)
    (h : scanStep fuel eofErr readComment input pos cur res prev = .ok (.cont p2 c2 r2 pr2)) :
    r2 ≠ [] → wsChar pr2 = false := by
  unfold scanStep at h
  split at h
  · split at h
    · exact absurd h (by simp)
    · exact absurd h (by simp)
  · rename_i c hget
    split at h
    · split at h
      · split at h
        · exact absurd h (by simp)
        · exact absurd h (by simp)
      · split at h
        · simp only [Except.ok.injEq, StepRes.cont.injEq] at h
          obtain ⟨-, -, hr, -⟩ := h
          intro hne
          exact absurd hr.symm hne
        · exact absurd h (by simp)
    · rename_i hpc
      split at h
      · simp only [Except.ok.injEq, StepRes.cont.injEq] at h
        obtain ⟨-, -, hr, -⟩ := h
        intro hne
        exact absurd hr.symm hne
      · rename_i hwse
        split at h
        · exact absurd h (by simp)
        · rename_i hnl
          split at h
          · rename_i hres
            split at h
            · exact absurd h (by simp)
            · rename_i hdelim
              split at h
              · exact absurd h (by simp)
              · simp only [Except.ok.injEq, StepRes.cont.injEq] at h
                obtain ⟨-, -, -, hpr⟩ := h
                intro _
                rw [← hpr]
                exact wsChar_false_of c (by simpa using hdelim) hnl
          · rename_i hres
            split at h
            · exact absurd h (by simp)
            · simp only [Except.ok.injEq, StepRes.cont.injEq] at h
              obtain ⟨-, -, -, hpr⟩ := h
              intro _
              rw [← hpr]
              have hresnil : res = [] := by simpa using hres
              cases hw : wsChar c with
              | false => rfl
              | true => exact absurd ⟨hw, hresnil⟩ hwse

/-- Claim C8: in the scanner, a `+` or `-` byte terminates the token
being accumulated iff the byte immediately before it was whitespace
(space, tab, LF, CR, NUL).  On every reachable mid-token state — `res`
non-empty with the invariant of `scanStep_inv`, established from the
loop's initial empty-token state — the preceding byte is *never*
whitespace, so both sides of the iff are false: the step accumulates the
`+`/`-` mid-token (the code's `prev_c == ' '` check cannot fire), and it
terminates the token iff the previous byte was whitespace, vacuously. -/
theorem c8_plus_minus_mid_token (fuel : Nat) (eofErr readComment : Bool) (input : Str)
    (pos cur : Nat) (res : Str) (prev : Char) (c : Char)
    (hinv : res ≠ [] → wsChar prev = false)
    (hget : input[pos]? = some c) (hpm : c = '+' ∨ c = '-') (hres : res ≠ []) :
    scanStep fuel eofErr readComment input pos cur res prev =
      .ok (.cont (pos + 1) cur (res ++ [c]) c)
    ∧ wsChar prev = false
    ∧ ((∃ t pd cd, scanStep fuel eofErr readComment input pos cur res prev = .ok (.done t pd cd))
        ↔ wsChar prev = true) := by
  have hws := hinv hres
  have hprev : prev ≠ ' ' := fun hp => absurd (hp ▸ hws) (by decide)
  have hstep : scanStep fuel eofErr readComment input pos cur res prev =
      .ok (.cont (pos + 1) cur (res ++ [c]) c) := by
    rcases hpm with rfl | rfl
    · simp [scanStep, hget, hres, hprev, wsChar, delimChar, wsPrevDelim, startDelim, nulChar]
    · simp [scanStep, hget, hres, hprev, wsChar, delimChar, wsPrevDelim, startDelim, nulChar]
  refine ⟨hstep, hws, ?_⟩
  constructor
  · rintro ⟨t, pd, cd, hdone⟩
    rw [hstep] at hdone
    simp at hdone
  · intro hcontra
    rw [hws] at hcontra
    exact Bool.noConfusion hcontra

/-- Witness for C8: scanning `a-b` with `a` already accumulated, the `-`
is accumulated mid-token (`1.5e-3`-style tokens stay single tokens). -/
theorem c8_witness :
    scanStep 10 true false ("a-b".data) 1 0 (['a']) 'a' = .ok (.cont 2 0 (['a', '-']) '-')
    ∧ wsChar 'a' = false
    ∧ ((∃ t pd cd, scanStep 10 true false ("a-b".data) 1 0 (['a']) 'a' = .ok (.done t pd cd))
        ↔ wsChar 'a' = true) :=
  c8_plus_minus_mid_token 10 true false ("a-b".data) 1 0 ['a'] 'a' '-'
    (fun _ => by decide) rfl (Or.inr rfl) (by decide)

/-! ## C9: the Integer payload width -/

/-- A decimal digit is not isspace and not a sign byte. -/
theorem digit_not_special (c : Char) (h : c.isDigit = true) :
    cppIsSpace c = false ∧ c ≠ '-' ∧ c ≠ '+' := by
  refine ⟨?_, ?_, ?_⟩
  · cases hs : cppIsSpace c with
    | false => rfl
    | true =>
      have hs2 : c = ' ' ∨ c = '\t' ∨ c = '\n' ∨ c = Char.ofNat 11 ∨ c = Char.ofNat 12 ∨
          c = '\r' := by
        simpa [cppIsSpace, or_assoc] using hs
      rcases hs2 with h' | h' | h' | h' | h' | h' <;> (subst h'; exact absurd h (by decide))
  · intro h'; subst h'; exact absurd h (by decide)
  · intro h'; subst h'; exact absurd h (by decide)

/-- takeWhile keeps a list all of whose elements satisfy the test. -/
theorem takeWhile_all {p : Char → Bool} :
    ∀ (l : Str), (∀ a ∈ l, p a = true) → l.takeWhile p = l := by
  intro l
  induction l with
  | nil => intro _; rfl
  | cons a t ih =>
    intro h
    rw [List.takeWhile_cons, if_pos (h a (List.mem_cons_self a t)),
      ih (fun b hb => h b (List.mem_cons_of_mem a hb))]

/-- std::stoi on a pure digit string whose value fits in `int` returns
exactly that value. -/
theorem stoi_digits (token : Str) (hne : token ≠ []) (hdig : ∀ ch ∈ token, ch.isDigit = true)
    (hrange : (digitsVal token : Int) ≤ 2147483647) :
    stoi token = .ok (digitsVal token) := by
  obtain ⟨c0, rest, rfl⟩ := List.exists_cons_of_ne_nil hne
  obtain ⟨hsp, hminus, hplus⟩ := digit_not_special c0 (hdig c0 (List.mem_cons_self _ _))
  have hdw : (c0 :: rest).dropWhile cppIsSpace = c0 :: rest := by
    rw [List.dropWhile_cons, if_neg (by simp [hsp])]
  have htw : (c0 :: rest).takeWhile Char.isDigit = c0 :: rest := takeWhile_all _ hdig
  simp only [stoi, hdw, List.headD_cons, if_neg hminus, if_neg (not_or.mpr ⟨hminus, hplus⟩),
    htw, if_neg hne, one_mul]
  rw [if_neg]
  rintro (hlt | hgt)
  · have hnn : (0 : Int) ≤ (digitsVal (c0 :: rest) : Int) := Int.natCast_nonneg _
    omega
  · omega

/-- Claim C9: as stated the claim is false.  The Integer produced by
tokenToNumber goes through std::stoi into a C `int` (32 bits), not a
64-bit integer: the token `2147483648`, whose value comfortably fits a
64-bit signed integer, raises std::out_of_range instead of parsing. -/
theorem c9_counterexample :
    tokenToNumber ("2147483648".data) nulChar = .error .stdOutOfRange
    ∧ (2147483648 : Int) < 9223372036854775808 :=
  ⟨rfl, by decide⟩

/-- Claim C9 (amended): the Integer payload is the platform's 32-bit C
`int`: every unsigned digit token whose value is at most 2147483647
parses to an Integer holding exactly that value (larger values raise
std::out_of_range). -/
theorem c9_int32_payload (token : Str) (hne : token ≠ [])
    (hdig : ∀ ch ∈ token, ch.isDigit = true)
    (hrange : (digitsVal token : Int) ≤ 2147483647) :
    tokenToNumber token nulChar = .ok (.integer (digitsVal token) false) := by
  have hnodot : token.contains '.' = false := by
    cases hcon : token.contains '.' with
    | false => rfl
    | true =>
      have hmem : '.' ∈ token := by simpa using hcon
      exact absurd (hdig '.' hmem) (by decide)
  simp only [tokenToNumber, hnodot, Bool.false_eq_true, if_false]
  rw [stoi_digits token hne hdig hrange]
  simp [nulChar]

/-- Witness for C9 (amended): `123` parses to Integer(123). -/
theorem c9_witness : tokenToNumber ("123".data) nulChar = .ok (.integer 123 false) :=
  c9_int32_payload ("123".data) (by decide) (by decide) (by decide)

/-! ## C10: parseString at end-of-file -/

/-- If the remaining bytes never bring the parenthesis counter to zero,
the parseString loop consumes them all and returns the accumulated bytes
without error. -/
theorem parseStringLoop_eof :
    ∀ (l : Str) (fuel : Nat) (input : Str) (pos : Nat) (res : Str) (escaped : Bool) (cnt : Int),
      input.drop pos = l → l.length < fuel → stringCloses l escaped cnt = false →
      parseStringLoop fuel input pos res escaped cnt =
        .ok (.string (res ++ l), pos + l.length) := by
  intro l
  induction l with
  | nil =>
    intro fuel input pos res esc cnt hdrop hfuel hcl
    cases fuel with
    | zero => simp at hfuel
    | succ f =>
      have hnone : input[pos]? = none := by
        have h2 := List.getElem?_drop input pos 0
        rw [hdrop] at h2
        simpa using h2.symm
      simp [parseStringLoop, hnone]
  | cons ch rest ih =>
    intro fuel input pos res esc cnt hdrop hfuel hcl
    cases fuel with
    | zero => simp at hfuel
    | succ f =>
      have hget : input[pos]? = some ch := by
        have h2 := List.getElem?_drop input pos 0
        rw [hdrop] at h2
        simpa using h2.symm
      have hdrop2 : input.drop (pos + 1) = rest := by
        have h3 := List.tail_drop input pos
        rw [hdrop] at h3
        simpa using h3.symm
      simp only [stringCloses] at hcl
      simp only [parseStringLoop, hget]
      by_cases hclose : ch = ')' ∧ ¬esc ∧
          (if ch = '(' ∧ ¬esc then cnt + 1 else if ch = ')' ∧ ¬esc then cnt - 1 else cnt) = 0
      · rw [if_pos hclose] at hcl
        exact absurd hcl (by simp)
      · rw [if_neg hclose] at hcl
        rw [if_neg hclose]
        have hres := ih f input (pos + 1) (res ++ [ch]) _ _ hdrop2 (by simpa using hfuel) hcl
        rw [hres]
        have e1 : res ++ [ch] ++ rest = res ++ ch :: rest := by simp
        have e2 : pos + 1 + rest.length = pos + (ch :: rest).length := by
          simp [List.length_cons]
          omega
        rw [e1, e2]

/-- Claim C10: when the byte source reaches end-of-file inside a literal
string (the parentheses never balance to zero), parseString raises no
error — in particular no TruncatedFile — and returns a String holding
every byte read from the opening parenthesis to the end of the file. -/
theorem c10_string_eof_no_error (fuel : Nat) (input : Str) (pos : Nat)
    (hfuel : input.length - pos < fuel)
    (hcl : stringCloses (input.drop pos) false 1 = false) :
    parseString fuel input pos = .ok (.string (input.drop pos), pos + (input.drop pos).length) :=
  parseStringLoop_eof (input.drop pos) fuel input pos [] false 1 rfl
    (by rw [List.length_drop]; exact hfuel) hcl

/-- Witness for C10: `abc(def` hits EOF with the nesting still open and
comes back whole, without error. -/
theorem c10_witness :
    parseString 100 ("abc(def".data) 0 = .ok (.string ("abc(def".data), 7) := by
  have h := c10_string_eof_no_error 100 ("abc(def".data) 0 (by decide) (by decide)
  simpa using h

end UPDF
